import Mathlib

/-!
Shallow embedding of the training core of `stable_baselines3/sac/sac.py`
(SAC with optional CQL conservative loss and CRR pretraining), together
with theorems checking the natural-language specification against it.

Tensors over a batch are embedded as functions `Fin B → ℚ` (or `→ ℝ` where
the source uses `exp`/`log`); the critic ensemble output, a Python tuple of
per-critic tensors, is a `List` of such functions.  Batch means are sums
divided by the batch size.
-/

namespace SacSpec

/-! ## Target value estimator (`train` lines 319-328, `pretrain` lines 432-441)

`th.min(targets, dim=1)` over the concatenated per-critic target values is,
per batch row, the minimum of the list of critic outputs at that row. -/

/-- Row-wise `th.min` over the concatenated critic outputs
(`th.cat(..., dim=1)` then `th.min(..., dim=1)`): minimum of a nonempty
list of per-critic values; `0` as junk value on the empty ensemble. -/
def minQ : List ℚ → ℚ
  | [] => 0
  | q :: qs => qs.foldl min q

/-- `q_backup` from `train` (lines 319-328): `target_q` is the min over
target critics, the entropy term `ent_coef * next_log_prob` is subtracted,
then `q_backup = rewards + (1 - dones) * gamma * target_q`. -/
def q_backup (reward done gamma : ℚ) (targetQs : List ℚ)
    (ent_coef next_log_prob : ℚ) : ℚ :=
  let target_q := minQ targetQs
  let target_q := target_q - ent_coef * next_log_prob
  reward + (1 - done) * gamma * target_q

/-- The same computation as written a second time in `pretrain`
(lines 432-441). -/
def q_backup_pretrain (reward done gamma : ℚ) (targetQs : List ℚ)
    (ent_coef next_log_prob : ℚ) : ℚ :=
  let target_q := minQ targetQs
  let target_q := target_q - ent_coef * next_log_prob
  reward + (1 - done) * gamma * target_q

/-! ## Critic loss (`train` lines 330-336) -/

/-- `F.mse_loss` with default mean reduction over a batch given as lists. -/
def mse_loss (preds targets : List ℚ) : ℚ :=
  (List.zipWith (fun p t => (p - t) ^ 2) preds targets).sum / preds.length

/-- `critic_loss = 0.5 * sum([F.mse_loss(current_q, q_backup) for current_q
in current_q_estimates])` where `current_q_estimates` is the tuple of critic
outputs (one batch-long list per critic). -/
def critic_loss (current_q_estimates : List (List ℚ)) (q_backup_batch : List ℚ) : ℚ :=
  (1 / 2) * (current_q_estimates.map (fun current_q => mse_loss current_q q_backup_batch)).sum

/-! ## Target network synchronization schedule (`train` lines 364-366)

The Polyak update runs at gradient step `i` (0-indexed, `i < gradient_steps`)
exactly when `i % target_update_interval == 0`. -/

/-- The 0-indexed gradient steps, within one `train` call of `G` steps, at
which `polyak_update` executes. -/
def syncSteps (G interval : ℕ) : List ℕ :=
  (List.range G).filter (fun i => i % interval == 0)

/-! ## Conservative loss estimator (`_compute_conservative_loss`, lines 209-268)

The batch has `B` rows and `n` action samples per row.  After reshaping,
`policy_values`, `log_probs` and `random_values` are indexed by
`(critic, row, sample)`; with the asserted `n_critics == 1` the critic
index is trivial and they are embedded as `Fin B → Fin n → ℝ`.
`data_values` is indexed by the row alone.  Batch/sample means are sums
divided by the cardinality. -/

/-- `base = th.max(policy_values.max(), random_values.max()).detach()`
(line 251): the maximum over all entries of the two value tensors. -/
noncomputable def cqlBase (B n : ℕ) (policy_values random_values : Fin B → Fin n → ℝ) : ℝ :=
  max (⨆ b, ⨆ j, policy_values b j) (⨆ b, ⨆ j, random_values b j)

/-- `policy_meanexp = (policy_values - base - log_probs).exp().mean(dim=2)`
(line 254), per batch row. -/
noncomputable def policy_meanexp (B n : ℕ) (policy_values log_probs : Fin B → Fin n → ℝ)
    (base : ℝ) (b : Fin B) : ℝ :=
  (∑ j, Real.exp (policy_values b j - base - log_probs b j)) / n

/-- `random_meanexp = (random_values - base).exp().mean(dim=2) / 0.5`
(line 255), per batch row. -/
noncomputable def random_meanexp (B n : ℕ) (random_values : Fin B → Fin n → ℝ)
    (base : ℝ) (b : Fin B) : ℝ :=
  ((∑ j, Real.exp (random_values b j - base)) / n) / 0.5

/-- `logsumexp = (0.5 * random_meanexp + 0.5 * policy_meanexp + 1e-10).log()`
then `logsumexp += base` (lines 257-258), per batch row. -/
noncomputable def cqlLogsumexp (B n : ℕ)
    (policy_values log_probs random_values : Fin B → Fin n → ℝ) (b : Fin B) : ℝ :=
  let base := cqlBase B n policy_values random_values
  Real.log (0.5 * random_meanexp B n random_values base b
    + 0.5 * policy_meanexp B n policy_values log_probs base b + 1e-10) + base

/-- `clipped_alpha = self.log_alpha.clamp(-10.0, 2.0).exp()` (line 266);
`clamp(x, lo, hi) = min(max(x, lo), hi)`. -/
noncomputable def clipped_alpha (log_alpha : ℝ) : ℝ :=
  Real.exp (min (max log_alpha (-10)) 2)

/-- `element_wise_loss = logsumexp - data_values - self.alpha_threshold`
(line 263), per batch row. -/
noncomputable def element_wise_loss (B n : ℕ)
    (policy_values log_probs random_values : Fin B → Fin n → ℝ)
    (data_values : Fin B → ℝ) (alpha_threshold : ℝ) (b : Fin B) : ℝ :=
  cqlLogsumexp B n policy_values log_probs random_values b - data_values b - alpha_threshold

/-- The returned scalar
`(clipped_alpha * element_wise_loss).sum(dim=0).mean()` (line 268): with
`n_critics == 1` the sum over the critic dimension is the identity, and the
mean runs over the batch. -/
noncomputable def conservative_loss (B n : ℕ)
    (policy_values log_probs random_values : Fin B → Fin n → ℝ)
    (data_values : Fin B → ℝ) (log_alpha alpha_threshold : ℝ) : ℝ :=
  (∑ b, clipped_alpha log_alpha *
    element_wise_loss B n policy_values log_probs random_values data_values alpha_threshold b) / B

/-- `_compute_conservative_loss` with its `assert n_critics == 1`
(line 215): on any other ensemble size the assertion raises before any
loss is computed, embedded as `none`. -/
noncomputable def compute_conservative_loss (n_critics : ℕ) (B n : ℕ)
    (policy_values log_probs random_values : Fin B → Fin n → ℝ)
    (data_values : Fin B → ℝ) (log_alpha alpha_threshold : ℝ) : Option ℝ :=
  if n_critics = 1 then
    some (conservative_loss B n policy_values log_probs random_values
      data_values log_alpha alpha_threshold)
  else
    none

/-! ## Entropy coefficient controller in `train` (lines 297-317)

In auto mode the step computes `ent_coef = th.exp(self.log_ent_coef.detach())`
before the coefficient optimizer step runs, then
`ent_coef_loss = -(self.log_ent_coef * (log_prob + self.target_entropy)
.detach()).mean()`, and only afterwards applies `backward()` / `step()` to
`log_ent_coef`.  The detached factor `(log_prob + target_entropy)` is a
constant in the loss, so the loss is linear in `log_ent_coef` with slope
`-(mean of (log_prob + target_entropy))`; the optimizer step is abstracted
as a function of the parameter and that gradient. -/

/-- `ent_coef_loss` as a function of the `log_ent_coef` variable, with the
batch log-probabilities and target entropy entering as detached constants. -/
noncomputable def ent_coef_loss (B : ℕ) (log_ent_coef : ℝ)
    (log_prob : Fin B → ℝ) (target_entropy : ℝ) : ℝ :=
  -((∑ b, log_ent_coef * (log_prob b + target_entropy)) / B)

/-- Result of one auto-mode gradient step of `train`, restricted to the
quantities the entropy-coefficient claims are about. -/
structure TrainStepResult (B : ℕ) where
  ent_coef : ℝ
  ec_loss : ℝ
  new_log_ent_coef : ℝ
  q_backup_row : Fin B → ℝ
  actor_loss : ℝ

/-- One gradient step of `train` in auto entropy-coefficient mode, in
source order: `ent_coef` is the detached `exp(log_ent_coef)` read before the
optimizer update; the coefficient optimizer step (`opt_step`, applied to the
parameter and the gradient of `ent_coef_loss` in `log_ent_coef`) produces
the new parameter; the bootstrap target (lines 319-328) and the actor loss
(line 352) then use `ent_coef`. -/
noncomputable def trainStepAuto (B : ℕ) (opt_step : ℝ → ℝ → ℝ)
    (log_ent_coef : ℝ) (log_prob : Fin B → ℝ) (target_entropy : ℝ)
    (rewards dones : Fin B → ℝ) (gamma : ℝ)
    (min_target_q next_log_prob min_qf_pi : Fin B → ℝ) : TrainStepResult B :=
  let ent_coef := Real.exp log_ent_coef
  let ec_loss := ent_coef_loss B log_ent_coef log_prob target_entropy
  let new_log_ent_coef := opt_step log_ent_coef (-((∑ b, (log_prob b + target_entropy)) / B))
  let target_q := fun b => min_target_q b - ent_coef * next_log_prob b
  let q_backup_row := fun b => rewards b + (1 - dones b) * gamma * target_q b
  let actor_loss := (∑ b, (ent_coef * log_prob b - min_qf_pi b)) / B
  { ent_coef := ent_coef, ec_loss := ec_loss, new_log_ent_coef := new_log_ent_coef,
    q_backup_row := q_backup_row, actor_loss := actor_loss }

/-! ## CRR pretraining: regression weight and actor loss (lines 456-497) -/

/-- The regression weight of `pretrain` as a function of the strategy
string: `1` for `"bc"` (no advantage is consulted), the indicator
`advantage > 0` for `"binary"`, and
`th.clamp(th.exp(advantage / exp_temperature), 0.0, 20.0)` otherwise. -/
noncomputable def crrWeight (strategy : String) (advantage exp_temperature : ℝ) : ℝ :=
  if strategy = "bc" then 1
  else if strategy = "binary" then (if 0 < advantage then 1 else 0)
  else min (max (Real.exp (advantage / exp_temperature)) 0) 20

/-- `actor_loss = (-log_prob * weight).mean()` (line 495) for a scalar
weight broadcast over the batch. -/
noncomputable def crrActorLoss (B : ℕ) (log_prob : Fin B → ℝ) (weight : ℝ) : ℝ :=
  (∑ b, -log_prob b * weight) / B

/-! ## Pretrain step as a state transformer (lines 404-506)

For the frame-effect claim the relevant mutable state is: the learned
`log_ent_coef` together with its Adam moment state, the actor, critic and
target-critic parameters, and the replay buffer's `ent_coef` annotation
field.  The non-delegating branch of a `pretrain` gradient step computes
`ent_coef` and `ent_coef_loss` (lines 421-426) but applies `backward`/`step`
only to the critic and the actor; `log_ent_coef` and its optimizer are
never touched. -/

structure TrainerState (A C : Type) where
  log_ent_coef : ℝ
  ent_coef_opt_state : ℝ
  actor : A
  critic : C
  critic_target : C
  buffer_ent_coef : ℝ

/-- The body of one non-delegating `pretrain` gradient step (lines 410-506):
write the detached `exp(log_ent_coef)` into the buffer annotation, apply one
optimizer step to the critic then to the actor (abstracted as parameter
update functions), and hard-copy the critic into the target critic when
`gradient_step % target_update_interval == 0`. -/
noncomputable def pretrainOfflineStep {A C : Type} (critic_upd : C → C) (actor_upd : A → A)
    (gradient_step target_update_interval : ℕ)
    (s : TrainerState A C) : TrainerState A C :=
  let s1 := { s with buffer_ent_coef := Real.exp s.log_ent_coef }
  let s2 := { s1 with critic := critic_upd s1.critic }
  let s3 := { s2 with actor := actor_upd s2.actor }
  if gradient_step % target_update_interval = 0 then
    { s3 with critic_target := s3.critic }
  else s3

/-- One `pretrain` gradient step including the delegation guard
(lines 406-408): when `off_policy_update_freq > 0` and the step index is
divisible by it, the step is an interleaved online `train` call (abstracted
as `online_step`); otherwise the offline body runs. -/
noncomputable def pretrainStep {A C : Type} (off_policy_update_freq : Int)
    (online_step : TrainerState A C → TrainerState A C)
    (critic_upd : C → C) (actor_upd : A → A)
    (gradient_step target_update_interval : ℕ)
    (s : TrainerState A C) : TrainerState A C :=
  if 0 < off_policy_update_freq ∧ (gradient_step : Int) % off_policy_update_freq = 0 then
    online_step s
  else
    pretrainOfflineStep critic_upd actor_upd gradient_step target_update_interval s

/-! ## `th.min(*critic_outputs)` in `pretrain` (lines 459-481)

`self.critic(obs, act)` returns a tuple of `n_critics` batch tensors.
Unpacking it into `th.min` dispatches on the tuple length: a single tensor
gives the overload `torch.min(input)`, a full reduction to one scalar (the
minimum over the whole batch); two tensors give `torch.min(input, other)`,
the element-wise minimum, one value per batch row.  Any other arity is a
`torch.min` signature error, embedded as `none`. -/

inductive TorchMin (B : ℕ) where
  | scalar (v : ℚ)
  | tensor (v : Fin B → ℚ)

/-- Minimum over all entries of a batch tensor (`torch.min(input)`),
given a nonempty batch. -/
def tensorGlobalMin (B : ℕ) (hB : 0 < B) (q : Fin B → ℚ) : ℚ :=
  Finset.univ.inf' (Finset.univ_nonempty_iff.mpr ⟨⟨0, hB⟩⟩) q

/-- `th.min(*outputs)` on the unpacked critic tuple. -/
def thMinUnpack (B : ℕ) (hB : 0 < B) : List (Fin B → ℚ) → Option (TorchMin B)
  | [q] => some (.scalar (tensorGlobalMin B hB q))
  | [q1, q2] => some (.tensor (fun b => min (q1 b) (q2 b)))
  | _ => none

/-- PyTorch broadcasting of a (possibly 0-dimensional) result against the
batch dimension, as used when the advantage weights the per-sample loss. -/
def torchMinBroadcast (B : ℕ) (t : TorchMin B) (b : Fin B) : ℚ :=
  match t with
  | .scalar v => v
  | .tensor v => v b

/-- The `qf_agg` loop of `pretrain` (lines 463-479) followed by
`advantage = qf_buffer - qf_agg` (line 481), with `reduce = "mean"`:
`qf_buffer` is `th.min(*critic(obs, batch_actions))` and each sample `k`
contributes `th.min(*critic(obs, pi_actions_k)) / n_action_samples` to a
running sum.  Everything is broadcast against the batch dimension. -/
def crrAdvantage (B : ℕ) (hB : 0 < B) (n_action_samples : ℕ)
    (buffer_outs : List (Fin B → ℚ)) (pi_outs : Fin n_action_samples → List (Fin B → ℚ)) :
    Option (Fin B → ℚ) := do
  let qf_buffer ← thMinUnpack B hB buffer_outs
  let mut_agg : Fin B → ℚ := fun _ => 0
  let qf_agg ← (List.finRange n_action_samples).foldlM
    (fun acc k => do
      let qf_pi ← thMinUnpack B hB (pi_outs k)
      pure (fun b => acc b + torchMinBroadcast B qf_pi b / n_action_samples))
    mut_agg
  pure (fun b => torchMinBroadcast B qf_buffer b - qf_agg b)

/-! ## Theorems -/

/-- C2: for every transition, the bootstrap target of `train` equals
`reward + (1 − done) × gamma × (min over target critics − ent_coef ×
next_log_prob)`, the `pretrain` computation is identical, and for a row
with `done = 1` the target equals the reward exactly. -/
theorem q_backup_spec (reward done gamma ent_coef next_log_prob : ℚ)
    (targetQs : List ℚ) :
    q_backup reward done gamma targetQs ent_coef next_log_prob
        = reward + (1 - done) * gamma * (minQ targetQs - ent_coef * next_log_prob)
      ∧ q_backup_pretrain reward done gamma targetQs ent_coef next_log_prob
        = q_backup reward done gamma targetQs ent_coef next_log_prob
      ∧ (done = 1 →
          q_backup reward done gamma targetQs ent_coef next_log_prob = reward) := by
  refine ⟨rfl, rfl, fun h => ?_⟩
  subst h
  simp [q_backup]

/-- Witness for `q_backup_spec` at a concrete terminal transition. -/
theorem q_backup_spec_witness :
    q_backup 3 1 (99 / 100) [5] 0 0 = 3 :=
  (q_backup_spec 3 1 (99 / 100) 0 0 [5]).2.2 rfl

/-- C6: with rewards `[1, 0]`, dones `[0, 1]`, `gamma = 0.99`, every
critic and target critic constant at `5`, and entropy coefficient `0`,
the bootstrap targets are `[5.95, 0]` (`5.95 = 119/20`) and the critic
loss `0.5 × Σ_critics mse` equals the plain mean squared error between the
constant output `5` and the targets, namely `10361/800 = 12.95125`. -/
theorem critic_loss_scenario :
    q_backup 1 0 (99 / 100) [5, 5] 0 0 = 119 / 20
  ∧ q_backup 0 1 (99 / 100) [5, 5] 0 0 = 0
  ∧ critic_loss [[5, 5], [5, 5]] [119 / 20, 0] = mse_loss [5, 5] [119 / 20, 0]
  ∧ mse_loss [5, 5] [119 / 20, 0] = 10361 / 800 := by
  refine ⟨by norm_num [q_backup, minQ], by norm_num [q_backup, minQ], ?_, ?_⟩ <;>
    norm_num [critic_loss, mse_loss]

/-- C7: within a `train` call of `G` gradient steps, the Polyak sync runs
exactly at the 0-indexed steps divisible by `target_update_interval`; with
interval 2 and 5 steps it runs exactly at steps 0, 2, 4, i.e. 3 times. -/
theorem syncSteps_spec (G interval : ℕ) :
    (∀ i, i ∈ syncSteps G interval ↔ i < G ∧ i % interval = 0)
  ∧ syncSteps 5 2 = [0, 2, 4]
  ∧ (syncSteps 5 2).length = 3 := by
  refine ⟨fun i => ?_, by decide, by decide⟩
  simp [syncSteps, List.mem_filter, List.mem_range]

/-- C4: the conservative coefficient `clipped_alpha` always lies in
`[exp(−10), exp(2)]` (hence is strictly positive), exponentiating the
clamped `log_alpha` coincides with clamping `exp(log_alpha)` to
`[exp(−10), exp(2)]`, and at the extremes `−1000` and `1000` the
coefficient saturates at the bounds. -/
theorem clipped_alpha_spec (log_alpha : ℝ) :
    Real.exp (-10) ≤ clipped_alpha log_alpha
  ∧ clipped_alpha log_alpha ≤ Real.exp 2
  ∧ 0 < clipped_alpha log_alpha
  ∧ clipped_alpha log_alpha
      = min (max (Real.exp log_alpha) (Real.exp (-10))) (Real.exp 2)
  ∧ clipped_alpha (-1000) = Real.exp (-10)
  ∧ clipped_alpha 1000 = Real.exp 2 := by
  refine ⟨?_, ?_, Real.exp_pos _, ?_, ?_, ?_⟩
  · exact Real.exp_le_exp.mpr (le_min (le_max_right _ _) (by norm_num))
  · exact Real.exp_le_exp.mpr (min_le_right _ _)
  · unfold clipped_alpha
    rw [Real.exp_monotone.map_min, Real.exp_monotone.map_max]
  · unfold clipped_alpha
    have h1 : max (-1000 : ℝ) (-10) = -10 := max_eq_right (by norm_num)
    have h2 : min (-10 : ℝ) 2 = -10 := min_eq_left (by norm_num)
    rw [h1, h2]
  · unfold clipped_alpha
    have h1 : max (1000 : ℝ) (-10) = 1000 := max_eq_left (by norm_num)
    have h2 : min (1000 : ℝ) 2 = 2 := min_eq_right (by norm_num)
    rw [h1, h2]

/-- C8: with strategy `"bc"` the regression weight is exactly `1`,
independent of the advantage and the temperature, and the actor loss is
the plain negative log-likelihood `mean(−log_prob)` of the batch's own
actions. -/
theorem crr_bc_weight_spec (advantage exp_temperature : ℝ) (B : ℕ)
    (log_prob : Fin B → ℝ) :
    crrWeight "bc" advantage exp_temperature = 1
  ∧ crrActorLoss B log_prob (crrWeight "bc" advantage exp_temperature)
      = (∑ b, -log_prob b) / B := by
  constructor
  · simp [crrWeight]
  · simp [crrActorLoss, crrWeight]

/-- C3: invoking the conservative-loss computation with an ensemble size
other than 1 (for example 2) hits the `assert n_critics == 1` and no loss
value is produced, while with exactly one critic the assertion never fires
and a loss value is returned. -/
theorem conservative_loss_assertion (B n : ℕ)
    (policy_values log_probs random_values : Fin B → Fin n → ℝ)
    (data_values : Fin B → ℝ) (log_alpha thr : ℝ) :
    (∀ n_critics, n_critics ≠ 1 →
        compute_conservative_loss n_critics B n policy_values log_probs random_values
          data_values log_alpha thr = none)
  ∧ compute_conservative_loss 2 B n policy_values log_probs random_values
      data_values log_alpha thr = none
  ∧ (compute_conservative_loss 1 B n policy_values log_probs random_values
      data_values log_alpha thr).isSome := by
  refine ⟨fun k hk => if_neg hk, if_neg (by decide), ?_⟩
  simp [compute_conservative_loss]

/-- Witness for `conservative_loss_assertion`: a two-critic ensemble on a
concrete batch is rejected. -/
theorem conservative_loss_assertion_witness :
    compute_conservative_loss 2 1 1 (fun _ _ => 0) (fun _ _ => 0) (fun _ _ => 0)
      (fun _ => 0) 0 10 = none :=
  (conservative_loss_assertion 1 1 (fun _ _ => 0) (fun _ _ => 0) (fun _ _ => 0)
    (fun _ => 0) 0 10).1 2 (by decide)

/-- C9: a `pretrain` gradient step that does not delegate to an online
`train` call leaves `log_ent_coef` and its optimizer state unchanged: the
entropy coefficient is frozen on the pure pretraining path. -/
theorem pretrain_freezes_ent_coef {A C : Type} (off_policy_update_freq : Int)
    (online_step : TrainerState A C → TrainerState A C)
    (critic_upd : C → C) (actor_upd : A → A)
    (gradient_step target_update_interval : ℕ) (s : TrainerState A C)
    (h : ¬(0 < off_policy_update_freq ∧
        (gradient_step : Int) % off_policy_update_freq = 0)) :
    (pretrainStep off_policy_update_freq online_step critic_upd actor_upd
        gradient_step target_update_interval s).log_ent_coef = s.log_ent_coef
  ∧ (pretrainStep off_policy_update_freq online_step critic_upd actor_upd
        gradient_step target_update_interval s).ent_coef_opt_state
      = s.ent_coef_opt_state := by
  rw [pretrainStep, if_neg h]
  unfold pretrainOfflineStep
  constructor <;> (dsimp only; split <;> rfl)

/-- Witness for `pretrain_freezes_ent_coef` on a concrete state with the
delegation disabled (`off_policy_update_freq = −1`). -/
theorem pretrain_freezes_ent_coef_witness :
    (pretrainStep (-1) id id id 0 100
        (⟨1, 2, (), (), (), 0⟩ : TrainerState Unit Unit)).log_ent_coef = 1
  ∧ (pretrainStep (-1) id id id 0 100
        (⟨1, 2, (), (), (), 0⟩ : TrainerState Unit Unit)).ent_coef_opt_state = 2 :=
  pretrain_freezes_ent_coef (-1) id id id 0 100 ⟨1, 2, (), (), (), 0⟩ (by decide)

/-- C5: in auto mode, one `train` gradient step uses as entropy coefficient
the value `exp(log_ent_coef)` read before the coefficient optimizer update
(for any optimizer step function): the bootstrap target and the actor loss
of the step are expressed in that pre-update coefficient; the coefficient
loss equals `−mean(log_ent_coef × (log_prob + target_entropy))`; and, the
detached factor being a constant, the loss is an affine function of
`log_ent_coef` whose derivative everywhere is
`−mean(log_prob + target_entropy)` — no gradient flows through `log_prob`
or `target_entropy`. -/
theorem train_ent_coef_lag (B : ℕ) (opt_step : ℝ → ℝ → ℝ) (lec : ℝ)
    (log_prob : Fin B → ℝ) (target_entropy : ℝ) (rewards dones : Fin B → ℝ)
    (gamma : ℝ) (min_target_q next_log_prob min_qf_pi : Fin B → ℝ) (x : ℝ) :
    (trainStepAuto B opt_step lec log_prob target_entropy rewards dones gamma
        min_target_q next_log_prob min_qf_pi).ent_coef = Real.exp lec
  ∧ (∀ b, (trainStepAuto B opt_step lec log_prob target_entropy rewards dones gamma
        min_target_q next_log_prob min_qf_pi).q_backup_row b
      = rewards b + (1 - dones b) * gamma * (min_target_q b - Real.exp lec * next_log_prob b))
  ∧ (trainStepAuto B opt_step lec log_prob target_entropy rewards dones gamma
        min_target_q next_log_prob min_qf_pi).actor_loss
      = (∑ b, (Real.exp lec * log_prob b - min_qf_pi b)) / B
  ∧ (trainStepAuto B opt_step lec log_prob target_entropy rewards dones gamma
        min_target_q next_log_prob min_qf_pi).ec_loss
      = -((∑ b, lec * (log_prob b + target_entropy)) / B)
  ∧ (trainStepAuto B opt_step lec log_prob target_entropy rewards dones gamma
        min_target_q next_log_prob min_qf_pi).new_log_ent_coef
      = opt_step lec (-((∑ b, (log_prob b + target_entropy)) / B))
  ∧ HasDerivAt (fun y => ent_coef_loss B y log_prob target_entropy)
      (-((∑ b, (log_prob b + target_entropy)) / B)) x := by
  refine ⟨rfl, fun b => rfl, rfl, rfl, rfl, ?_⟩
  have hfun : (fun y => ent_coef_loss B y log_prob target_entropy)
      = fun y => y * (-((∑ b, (log_prob b + target_entropy)) / B)) := by
    funext y
    unfold ent_coef_loss
    rw [← Finset.mul_sum]
    ring
  rw [hfun]
  exact hasDerivAt_mul_const _

/-- C1: with `n_critics = 1` the conservative loss is
`clipped_alpha × mean_batch (logsumexp − data_values − alpha_threshold)`,
where per row `logsumexp = log(0.5 × mean_exp_random / 0.5 + 0.5 ×
mean_exp_policy + 1e-10) + base`; the division by `0.5` cancels against
the outer `0.5` for the random term only, so the random mean-exp enters
with coefficient `1` and the policy mean-exp with coefficient `0.5`. -/
theorem conservative_loss_spec (B n : ℕ) (hB : 0 < B) (hn : 0 < n)
    (policy_values log_probs random_values : Fin B → Fin n → ℝ)
    (data_values : Fin B → ℝ) (log_alpha thr : ℝ) :
    conservative_loss B n policy_values log_probs random_values data_values log_alpha thr
      = clipped_alpha log_alpha *
        ((∑ b, (cqlLogsumexp B n policy_values log_probs random_values b
            - data_values b - thr)) / B)
  ∧ (∀ b, cqlLogsumexp B n policy_values log_probs random_values b
      = Real.log
          ((∑ j, Real.exp (random_values b j - cqlBase B n policy_values random_values)) / n
            + 0.5 * ((∑ j, Real.exp (policy_values b j
                - cqlBase B n policy_values random_values - log_probs b j)) / n)
            + 1e-10)
        + cqlBase B n policy_values random_values) := by
  constructor
  · simp only [conservative_loss, element_wise_loss]
    rw [← Finset.mul_sum, mul_div_assoc]
  · intro b
    simp only [cqlLogsumexp, random_meanexp, policy_meanexp]
    congr 2
    ring

/-- Witness for `conservative_loss_spec` on a one-row, one-sample batch of
zeroes. -/
theorem conservative_loss_spec_witness :
    conservative_loss 1 1 (fun _ _ => 0) (fun _ _ => 0) (fun _ _ => 0)
        (fun _ => 0) 0 10
      = clipped_alpha 0 *
        ((∑ b : Fin 1, (cqlLogsumexp 1 1 (fun _ _ => 0) (fun _ _ => 0) (fun _ _ => 0) b
            - 0 - 10)) / ((1 : ℕ) : ℝ)) := by
  exact (conservative_loss_spec 1 1 Nat.one_pos Nat.one_pos (fun _ _ => 0) (fun _ _ => 0)
    (fun _ _ => 0) (fun _ => 0) 0 10).1

/-- Each step of the `qf_agg` running-mean loop, when every critic tuple is
a singleton, adds the batch-global minimum of that sample's values divided
by `n_action_samples`. -/
theorem crrAgg_singleton_fold (B : ℕ) (hB : 0 < B) (nas : ℕ)
    (p : Fin nas → Fin B → ℚ) (l : List (Fin nas)) (acc : Fin B → ℚ) :
    l.foldlM (fun acc k => do
        let qf_pi ← thMinUnpack B hB [p k]
        pure (fun b => acc b + torchMinBroadcast B qf_pi b / nas)) acc
    = some (fun b => acc b
        + (l.map (fun k => tensorGlobalMin B hB (p k) / (nas : ℚ))).sum) := by
  induction l generalizing acc with
  | nil => simp
  | cons k l ih =>
    rw [List.foldlM_cons]
    simp only [thMinUnpack, torchMinBroadcast, Option.pure_def, Option.bind_eq_bind,
      Option.some_bind] at ih ⊢
    rw [ih]
    refine congrArg some (funext fun b => ?_)
    simp [add_assoc]

/-- C10: in the non-`"bc"` pretrain path, `th.min(*outputs)` on a
one-critic tuple is the global minimum over the whole batch tensor (a
scalar), so `qf_buffer` and every sampled `qf_pi` collapse to batch-wide
scalars and the advantage is one and the same scalar for every sample;
only on a two-critic tuple is the minimum taken element-wise per row. -/
theorem crr_min_collapse (B : ℕ) (hB : 0 < B) (nas : ℕ)
    (q : Fin B → ℚ) (p : Fin nas → Fin B → ℚ) (q1 q2 : Fin B → ℚ) :
    thMinUnpack B hB [q] = some (.scalar (tensorGlobalMin B hB q))
  ∧ (∀ k, thMinUnpack B hB [p k] = some (.scalar (tensorGlobalMin B hB (p k))))
  ∧ thMinUnpack B hB [q1, q2] = some (.tensor (fun b => min (q1 b) (q2 b)))
  ∧ crrAdvantage B hB nas [q] (fun k => [p k])
      = some (fun _ => tensorGlobalMin B hB q
          - ((List.finRange nas).map
              (fun k => tensorGlobalMin B hB (p k) / (nas : ℚ))).sum)
  ∧ (∀ adv, crrAdvantage B hB nas [q] (fun k => [p k]) = some adv →
      ∀ b b', adv b = adv b') := by
  have hfold := crrAgg_singleton_fold B hB nas p (List.finRange nas) (fun _ => 0)
  simp only [thMinUnpack, torchMinBroadcast, Option.pure_def, Option.bind_eq_bind,
    Option.some_bind] at hfold
  have hadv : crrAdvantage B hB nas [q] (fun k => [p k])
      = some (fun _ => tensorGlobalMin B hB q
          - ((List.finRange nas).map
              (fun k => tensorGlobalMin B hB (p k) / (nas : ℚ))).sum) := by
    simp only [crrAdvantage, thMinUnpack, torchMinBroadcast, Option.pure_def,
      Option.bind_eq_bind, Option.some_bind]
    rw [hfold]
    simp only [Option.some_bind]
    exact congrArg some (funext fun b => by simp)
  refine ⟨rfl, fun k => rfl, rfl, hadv, fun adv hsome b b' => ?_⟩
  rw [hadv] at hsome
  obtain rfl := Option.some_injective _ hsome.symm
  rfl

/-- Witness for `crr_min_collapse` on a one-row batch with one action
sample. -/
theorem crr_min_collapse_witness :
    thMinUnpack 1 Nat.one_pos [fun _ => (3 : ℚ)]
      = some (.scalar (tensorGlobalMin 1 Nat.one_pos (fun _ => (3 : ℚ)))) :=
  (crr_min_collapse 1 Nat.one_pos 1 (fun _ => 3) (fun _ _ => 2)
    (fun _ => 0) (fun _ => 0)).1

end SacSpec
